import Mathlib

/-!
# pacoloco: configuration parsing and validation (`config.go`)

A shallow embedding of `config.go`:

* the `SocketActivation` text codec (`MarshalText`, `UnmarshalText`);
* `parseConfig`: default seeding, YAML overlay, and the validation steps.

Everything outside the file is a parameter collected in `Env`: the YAML reader,
the Unicode branch of `strings.ToLower`, `unix.Access`, `user.Current` and
`cronexpr.Parse`.  `log.Fatal`/`log.Fatalf` end the process; here they end the
computation with an `Except.error` carrying the diagnostic.
-/

namespace Pacoloco

/-! ## Go values -/

/-- A Go `[]byte` (or the bytes of a Go `string`): the list of its byte values. -/
abbrev Bytes := List Nat

/-- The bytes of an ASCII string literal such as `"off"` (for ASCII text the
UTF-8 bytes are the code points). -/
def bytesOf (s : String) : Bytes := s.toList.map Char.toNat

/-- The constant `utf8.RuneSelf`: bytes below it are single-byte (ASCII) runes. -/
def RuneSelf : Nat := 128

/-- The per-byte step of the ASCII branch of `strings.ToLower`:
`if 'A' <= c && c <= 'Z' { c += 'a' - 'A' }`. -/
def lowerByte (c : Nat) : Nat := if 65 ≤ c ∧ c ≤ 90 then c + (97 - 65) else c

/-- Go `strings.ToLower`.  A string with only ASCII bytes is returned as is when
it has no upper-case letter and otherwise lowered byte by byte; a string with a
byte `>= utf8.RuneSelf` goes through `strings.Map(unicode.ToLower, s)`, which is
the parameter `mapLower`. -/
def ToLower (mapLower : Bytes → Bytes) (s : Bytes) : Bytes :=
  if s.all (fun c => decide (c < RuneSelf)) then
    if s.any (fun c => decide (65 ≤ c ∧ c ≤ 90)) then s.map lowerByte else s
  else mapLower s

/-! ## SocketActivation -/

/-- Go `type SocketActivation int`. -/
abbrev SocketActivation := Int

def ActivationOff : SocketActivation := 0
def ActivationMay : SocketActivation := 1
def ActivationMust : SocketActivation := 2

/-- The method `func (a SocketActivation) String() string`. -/
def SocketActivation.String (a : SocketActivation) : String :=
  if a = ActivationOff then "Off"
  else if a = ActivationMay then "May"
  else if a = ActivationMust then "Must"
  else "Invalid"

/-- The method `func (a SocketActivation) MarshalText() ([]byte, error)`: the
text, or the error message when the returned slice is nil. -/
def MarshalText (a : SocketActivation) : Except String Bytes :=
  if a = ActivationOff then .ok (bytesOf "off")
  else if a = ActivationMay then .ok (bytesOf "may")
  else if a = ActivationMust then .ok (bytesOf "must")
  else .error "Invalid value"

/-- The method `func (a *SocketActivation) UnmarshalText(text []byte) error`:
the value of the receiver after the call, and the returned error (`none` for
`nil`). -/
def UnmarshalText (mapLower : Bytes → Bytes) (a : SocketActivation) (text : Bytes) :
    SocketActivation × Option String :=
  let s := ToLower mapLower text
  if s = bytesOf "off" ∨ s = bytesOf "false" then (ActivationOff, none)
  else if s = bytesOf "may" ∨ s = bytesOf "auto" then (ActivationMay, none)
  else if s = bytesOf "must" ∨ s = bytesOf "true" then (ActivationMust, none)
  else (a, some "Ivalid SocketActivation value")

/-! ## Constants and configuration types -/

def DefaultPort : Int := 9129
def DefaultCacheDir : String := "/var/cache/pacoloco"
def DefaultTTLUnaccessed : Int := 30
def DefaultTTLUnupdated : Int := 200
def DefaultDBName : String := "sqlite-pkg-cache.db"
def DefaultActivation : SocketActivation := ActivationOff

/-- A `time.Time`, kept as an instant; `parseConfig` never reads or writes one. -/
abbrev Time := Int

structure Repo where
  URL : String
  URLs : List String
  Mirrorlist : String
  LastMirrorlistCheck : Time
  LastModificationTime : Time
  deriving DecidableEq, Repr

structure RefreshPeriod where
  Cron : String
  TTLUnaccessed : Int
  TTLUnupdated : Int
  deriving DecidableEq, Repr

/-- The struct `Config`.  `Repos` is the Go map `map[string]*Repo` listed in the
order the `range` loop visits it; a `none` value is a nil `*Repo`.  `Prefetch`
is the pointer `*RefreshPeriod`, `none` when nil. -/
structure Config where
  CacheDir : String
  Port : Int
  Repos : List (String × Option Repo)
  PurgeFilesAfter : Int
  DownloadTimeout : Int
  Prefetch : Option RefreshPeriod
  HttpProxy : String
  UserAgent : String
  LogTimestamp : Bool
  SocketActivation : Pacoloco.SocketActivation
  deriving DecidableEq, Repr

/-! ## The YAML document -/

/-- One entry of `repos` as written in the document; a key that is left out
decodes to the zero value of its field. -/
structure RepoDoc where
  url : String
  urls : List String
  mirrorlist : String
  deriving DecidableEq, Repr

/-- The `Repo` that decoding a document entry allocates: the `yaml:"-"` time
fields keep their zero value. -/
def RepoDoc.toRepo (d : RepoDoc) : Repo :=
  { URL := d.url, URLs := d.urls, Mirrorlist := d.mirrorlist,
    LastMirrorlistCheck := 0, LastModificationTime := 0 }

/-- Modelled from the spec: the loosely-typed document that the YAML reader (the
external `yaml.v3` package) produces from the raw text.  Each field is named by
its `yaml:"..."` tag and is `none` when the document omits the key.  A `repos`
value of `none` is a null entry; `prefetch` is `some none` for an explicit null
and otherwise the decoded struct, with keys left out at zero;
`socket_activation` is the scalar text handed to `UnmarshalText`. -/
structure Document where
  cache_dir : Option String
  port : Option Int
  repos : Option (List (String × Option RepoDoc))
  purge_files_after : Option Int
  download_timeout : Option Int
  prefetch : Option (Option RefreshPeriod)
  http_proxy : Option String
  user_agent : Option String
  set_timestamp_to_logs : Option Bool
  socket_activation : Option Bytes
  deriving DecidableEq, Repr

/-! ## The environment -/

/-- The mode bit `unix.R_OK`. -/
def R_OK : Nat := 4
/-- The mode bit `unix.W_OK`. -/
def W_OK : Nat := 2

/-- What `parseConfig` calls outside `config.go`. -/
structure Env where
  /-- The YAML reader: the document, or the error `yaml.Unmarshal` returns. -/
  yamlDecode : Bytes → Except String Document
  /-- The call `strings.Map(unicode.ToLower, s)`, the non-ASCII branch of `strings.ToLower`. -/
  mapLower : Bytes → Bytes
  /-- Whether `unix.Access(path, mode)` returns nil. -/
  access : String → Nat → Bool
  /-- The call `user.Current()`: the `Username`, or the error. -/
  currentUser : Except String String
  /-- Whether `cronexpr.Parse(s)` returns a nil error. -/
  cronParse : String → Bool

/-! ## Diagnostics -/

/-- The ways `parseConfig` ends without returning: one constructor per
`log.Fatal`/`log.Fatalf` call site, and the nil-pointer dereference of
`repo.URL` when a map value is nil. -/
inductive Fatal where
  | yamlError (err : String)
  | nilRepo (name : String)
  | urlAndUrls (name : String)
  | urlAndMirrorlist (name : String)
  | urlsAndMirrorlist (name : String)
  | noSource (name : String)
  | userLookup (err : String)
  | mirrorlistUnreadable (path name username : String)
  | purgeTooLow (value : Int)
  | cacheDirUnusable (dir username : String)
  | ttlUnaccessedTooLow
  | ttlUnupdatedTooLow
  | invalidCron
  deriving DecidableEq, Repr

/-- The text handed to `log.Fatal`/`log.Fatalf` (`%v` of a string is the string,
of an int its decimal form); for the nil dereference, the Go runtime message. -/
def Fatal.message : Fatal → String
  | .yamlError err => err
  | .nilRepo _ => "runtime error: invalid memory address or nil pointer dereference"
  | .urlAndUrls name =>
      "repo '" ++ name ++ "' specifies both url and urls parameters, please use only one of them"
  | .urlAndMirrorlist name =>
      "repo '" ++ name ++ "' specifies both url and mirrorlist parameter, please use only one of them"
  | .urlsAndMirrorlist name =>
      "repo '" ++ name ++ "' specifies both urls and mirrorlist parameter, please use only one of them"
  | .noSource name => "please specify url(s) or mirrorlist for repo '" ++ name ++ "'"
  | .userLookup err => err
  | .mirrorlistUnreadable path name username =>
      "mirrorlist file " ++ path ++ " for repo " ++ name ++
        " does not exist or isn't readable for user " ++ username
  | .purgeTooLow value =>
      "'purge_files_after' period is too low (" ++ toString value ++
        ") please specify at least 10 minutes"
  | .cacheDirUnusable dir username =>
      "directory " ++ dir ++ " does not exist or isn't writable for user " ++ username
  | .ttlUnaccessedTooLow =>
      "'ttl_unaccessed_in_days' value is too low. Please set it to a value greater than 0"
  | .ttlUnupdatedTooLow =>
      "'ttl_unupdated_in_days' value is too low. Please set it to a value greater than 0"
  | .invalidCron =>
      "Invalid cron string (if you don't know how to compose them, there are many online utilities for doing so). Please check https://github.com/gorhill/cronexpr#implementation for documentation."

/-! ## parseConfig -/

/-- The `Config` literal at the top of `parseConfig`; fields not listed there
have their zero value. -/
def seedConfig : Config :=
  { CacheDir := DefaultCacheDir
    Port := DefaultPort
    Repos := []
    PurgeFilesAfter := 0
    DownloadTimeout := 0
    Prefetch := none
    HttpProxy := ""
    UserAgent := ""
    LogTimestamp := false
    SocketActivation := DefaultActivation }

/-- Modelled from the spec: "deserialize raw input over the seeded defaults".
Every key present in the document overwrites its field, every other field keeps
the value it had; `socket_activation` is decoded by `UnmarshalText`, whose error
becomes the error of the whole decode. -/
def overlay (mapLower : Bytes → Bytes) (doc : Document) (result : Config) :
    Except String Config :=
  let decoded : SocketActivation × Option String :=
    match doc.socket_activation with
    | none => (result.SocketActivation, none)
    | some text => UnmarshalText mapLower result.SocketActivation text
  match decoded.2 with
  | some err => .error err
  | none =>
    .ok
      { CacheDir := doc.cache_dir.getD result.CacheDir
        Port := doc.port.getD result.Port
        Repos :=
          match doc.repos with
          | none => result.Repos
          | some rs => rs.map (fun e => (e.1, e.2.map RepoDoc.toRepo))
        PurgeFilesAfter := doc.purge_files_after.getD result.PurgeFilesAfter
        DownloadTimeout := doc.download_timeout.getD result.DownloadTimeout
        Prefetch := doc.prefetch.getD result.Prefetch
        HttpProxy := doc.http_proxy.getD result.HttpProxy
        UserAgent := doc.user_agent.getD result.UserAgent
        LogTimestamp := doc.set_timestamp_to_logs.getD result.LogTimestamp
        SocketActivation := decoded.1 }

/-- The call `yaml.Unmarshal(raw, &result)`: the struct after the call, or the
error. -/
def yamlUnmarshal (env : Env) (raw : Bytes) (result : Config) : Except String Config :=
  match env.yamlDecode raw with
  | .error err => .error err
  | .ok doc => overlay env.mapLower doc result

/-- The body of `for name, repo := range result.Repos`, for one entry. -/
def checkRepo (env : Env) (name : String) (repo : Option Repo) : Except Fatal Unit :=
  match repo with
  | none => .error (.nilRepo name)
  | some repo =>
    if repo.URL ≠ "" ∧ repo.URLs.length > 0 then .error (.urlAndUrls name)
    else if repo.URL ≠ "" ∧ repo.Mirrorlist ≠ "" then .error (.urlAndMirrorlist name)
    else if repo.URLs.length > 0 ∧ repo.Mirrorlist ≠ "" then .error (.urlsAndMirrorlist name)
    else if repo.URL = "" ∧ repo.URLs.length = 0 ∧ repo.Mirrorlist = "" then
      .error (.noSource name)
    else if repo.Mirrorlist ≠ "" ∧ env.access repo.Mirrorlist R_OK = false then
      match env.currentUser with
      | .error err => .error (.userLookup err)
      | .ok username => .error (.mirrorlistUnreadable repo.Mirrorlist name username)
    else .ok ()

/-- The body of `for name, repo := range result.Repos` once more, paired with the
calls of `unix.Access` it makes, as (path, mode), in order.  In line 130 the
call is the right operand of `&&`: it is made only when that line is reached
and `repo.Mirrorlist != ""`. -/
def checkRepoLogged (env : Env) (name : String) (repo : Option Repo) :
    Except Fatal Unit × List (String × Nat) :=
  match repo with
  | none => (.error (.nilRepo name), [])
  | some repo =>
    if repo.URL ≠ "" ∧ repo.URLs.length > 0 then (.error (.urlAndUrls name), [])
    else if repo.URL ≠ "" ∧ repo.Mirrorlist ≠ "" then (.error (.urlAndMirrorlist name), [])
    else if repo.URLs.length > 0 ∧ repo.Mirrorlist ≠ "" then
      (.error (.urlsAndMirrorlist name), [])
    else if repo.URL = "" ∧ repo.URLs.length = 0 ∧ repo.Mirrorlist = "" then
      (.error (.noSource name), [])
    else if repo.Mirrorlist ≠ "" then
      if env.access repo.Mirrorlist R_OK = false then
        match env.currentUser with
        | .error err => (.error (.userLookup err), [(repo.Mirrorlist, R_OK)])
        | .ok username =>
          (.error (.mirrorlistUnreadable repo.Mirrorlist name username),
            [(repo.Mirrorlist, R_OK)])
      else (.ok (), [(repo.Mirrorlist, R_OK)])
    else (.ok (), [])

/-- The loop `for name, repo := range result.Repos`, in iteration order. -/
def checkRepos (env : Env) : List (String × Option Repo) → Except Fatal Unit
  | [] => .ok ()
  | (name, repo) :: rest =>
    match checkRepo env name repo with
    | .error e => .error e
    | .ok _ => checkRepos env rest

/-- The block under `// set default values`: the two assignments through the
`result.Prefetch` pointer, as the struct it points to afterwards. -/
def setDefaultValues (prefetch : RefreshPeriod) : RefreshPeriod :=
  let p1 : RefreshPeriod :=
    if prefetch.TTLUnaccessed = 0 then { prefetch with TTLUnaccessed := DefaultTTLUnaccessed }
    else prefetch
  if p1.TTLUnupdated = 0 then { p1 with TTLUnupdated := DefaultTTLUnupdated } else p1

/-- The part of `parseConfig` under `// validate config`, on the decoded
struct `result`. -/
def validateConfig (env : Env) (result : Config) : Except Fatal Config :=
  match checkRepos env result.Repos with
  | .error e => .error e
  | .ok _ =>
    if result.PurgeFilesAfter < 10 * 60 ∧ result.PurgeFilesAfter ≠ 0 then
      .error (.purgeTooLow result.PurgeFilesAfter)
    else if env.access result.CacheDir (R_OK ||| W_OK) = false then
      match env.currentUser with
      | .error err => .error (.userLookup err)
      | .ok username => .error (.cacheDirUnusable result.CacheDir username)
    else
      match result.Prefetch with
      | none => .ok result
      | some prefetch =>
        let p := setDefaultValues prefetch
        if p.TTLUnaccessed < 0 then .error .ttlUnaccessedTooLow
        else if p.TTLUnupdated < 0 then .error .ttlUnupdatedTooLow
        else if env.cronParse p.Cron = false then .error .invalidCron
        else .ok { result with Prefetch := some p }

/-- The function `func parseConfig(raw []byte) *Config`: the returned
configuration, or the diagnostic the process ends with. -/
def parseConfig (env : Env) (raw : Bytes) : Except Fatal Config :=
  match yamlUnmarshal env raw seedConfig with
  | .error err => .error (.yamlError err)
  | .ok result => validateConfig env result

/-! ## Vocabulary of the specification -/

/-- How many of the three mirror sources an entry sets: a non-empty `url`, a
non-empty `urls` sequence, a non-empty `mirrorlist`. -/
def sourceCount (repo : Repo) : Nat :=
  (if repo.URL ≠ "" then 1 else 0) + (if repo.URLs ≠ [] then 1 else 0) +
    (if repo.Mirrorlist ≠ "" then 1 else 0)

/-- Exactly one of `url`, `urls`, `mirrorlist` is set. -/
def exactlyOneSource (repo : Repo) : Prop := sourceCount repo = 1

instance (repo : Repo) : Decidable (exactlyOneSource repo) :=
  inferInstanceAs (Decidable (sourceCount repo = 1))

/-- The prefetch schedule, when present, has non-negative TTLs and a cron
string that the cron parser accepts. -/
def prefetchAcceptable (env : Env) : Option RefreshPeriod → Prop
  | none => True
  | some p => 0 ≤ p.TTLUnaccessed ∧ 0 ≤ p.TTLUnupdated ∧ env.cronParse p.Cron = true

/-- The text `s` occurs in the message of the diagnostic `d`. -/
def Fatal.mentions (d : Fatal) (s : String) : Prop := s.toList <:+: d.message.toList

/-! ## Sample inputs -/

/-- A host where every access probe succeeds and a single cron string parses. -/
def envOpen (doc : Document) : Env :=
  { yamlDecode := fun _ => .ok doc
    mapLower := fun s => s
    access := fun _ _ => true
    currentUser := .ok "pacoloco"
    cronParse := fun s => s == "0 0 3 * * * *" }

/-- A host where no access probe succeeds and no cron string parses. -/
def envClosed (doc : Document) : Env :=
  { yamlDecode := fun _ => .ok doc
    mapLower := fun s => s
    access := fun _ _ => false
    currentUser := .ok "pacoloco"
    cronParse := fun _ => false }

/-- The document with no key at all. -/
def emptyDocument : Document :=
  { cache_dir := none, port := none, repos := none, purge_files_after := none,
    download_timeout := none, prefetch := none, http_proxy := none, user_agent := none,
    set_timestamp_to_logs := none, socket_activation := none }

/-- An entry that only names a mirrorlist file. -/
def mirrorlistRepo : Repo :=
  { URL := "", URLs := [], Mirrorlist := "/etc/pacman.d/mirrorlist",
    LastMirrorlistCheck := 0, LastModificationTime := 0 }

/-- A document with one mirrorlist repository and a prefetch schedule whose
TTLs are both left out. -/
def sampleDocument : Document :=
  { emptyDocument with
    repos := some [("core", some { url := "", urls := [], mirrorlist := "/etc/pacman.d/mirrorlist" })]
    purge_files_after := some 3600
    prefetch := some (some { Cron := "0 0 3 * * * *", TTLUnaccessed := 0, TTLUnupdated := 0 }) }

/-- What `yaml.Unmarshal` leaves in `result` for `sampleDocument`. -/
def sampleDecoded : Config :=
  { seedConfig with
    Repos := [("core", some mirrorlistRepo)]
    PurgeFilesAfter := 3600
    Prefetch := some { Cron := "0 0 3 * * * *", TTLUnaccessed := 0, TTLUnupdated := 0 } }

/-- A document whose prefetch schedule has a negative `ttl_unupdated_in_days`
and a cron string that does not parse. -/
def negativeTTLDocument : Document :=
  { emptyDocument with
    prefetch := some (some { Cron := "not a cron", TTLUnaccessed := 5, TTLUnupdated := -1 }) }

/-- What `yaml.Unmarshal` leaves in `result` for `negativeTTLDocument`. -/
def negativeTTLDecoded : Config :=
  { seedConfig with
    Prefetch := some { Cron := "not a cron", TTLUnaccessed := 5, TTLUnupdated := -1 } }

/-- A document whose prefetch schedule has valid TTLs and the cron string
`not a cron`. -/
def badCronDocument : Document :=
  { emptyDocument with
    prefetch := some (some { Cron := "not a cron", TTLUnaccessed := 5, TTLUnupdated := 7 }) }

/-- What `yaml.Unmarshal` leaves in `result` for `badCronDocument`. -/
def badCronDecoded : Config :=
  { seedConfig with
    Prefetch := some { Cron := "not a cron", TTLUnaccessed := 5, TTLUnupdated := 7 } }

/-- An entry that sets all three sources. -/
def conflictingRepo : Repo :=
  { URL := "https://a", URLs := ["https://b"], Mirrorlist := "/etc/pacman.d/mirrorlist",
    LastMirrorlistCheck := 0, LastModificationTime := 0 }

/-- A host like `envClosed` where the lookup of the current user fails too. -/
def envNoUser (doc : Document) : Env :=
  { envClosed doc with currentUser := .error "user: Current not implemented" }

/-- An entry that only sets `url`. -/
def urlRepo : Repo :=
  { URL := "https://a", URLs := [], Mirrorlist := "",
    LastMirrorlistCheck := 0, LastModificationTime := 0 }

/-- An entry that sets no source at all. -/
def sourcelessRepo : Repo :=
  { URL := "", URLs := [], Mirrorlist := "",
    LastMirrorlistCheck := 0, LastModificationTime := 0 }

/-- A document with a repository that names no source and a purge interval of
five seconds. -/
def brokenDocument : Document :=
  { emptyDocument with
    repos := some [("core", some { url := "", urls := [], mirrorlist := "" })]
    purge_files_after := some 5 }

/-- What `yaml.Unmarshal` leaves in `result` for `brokenDocument`. -/
def brokenDecoded : Config :=
  { seedConfig with
    Repos := [("core", some sourcelessRepo)]
    PurgeFilesAfter := 5 }

/-! ## Lemmas on diagnostics -/

/-- A text that the message is built around occurs in the message. -/
theorem Fatal.mentions_of_message (d : Fatal) (pre s post : String)
    (h : d.message = pre ++ s ++ post) : d.mentions s := by
  unfold Fatal.mentions
  rw [h]
  exact ⟨pre.toList, post.toList, by simp [String.toList]⟩

/-! ## Lemmas on decoding -/

/-- The fields of the struct after a successful decode: a key the document
omits leaves the seeded value in place. -/
theorem overlay_ok {mapLower : Bytes → Bytes} {doc : Document} {seed result : Config}
    (h : overlay mapLower doc seed = .ok result) :
    result.CacheDir = doc.cache_dir.getD seed.CacheDir ∧
      result.Port = doc.port.getD seed.Port ∧
      result.Prefetch = doc.prefetch.getD seed.Prefetch ∧
      (doc.socket_activation = none → result.SocketActivation = seed.SocketActivation) := by
  unfold overlay at h
  cases hs : doc.socket_activation with
  | none =>
    simp only [hs] at h
    cases h
    exact ⟨rfl, rfl, rfl, fun _ => rfl⟩
  | some text =>
    simp only [hs] at h
    split at h
    · cases h
    · cases h
      exact ⟨rfl, rfl, rfl, nofun⟩

/-! ## Lemmas on the validation steps -/

theorem parseConfig_of_unmarshal {env : Env} {raw : Bytes} {result : Config}
    (hdec : yamlUnmarshal env raw seedConfig = .ok result) :
    parseConfig env raw = validateConfig env result := by
  simp [parseConfig, hdec]

theorem parseConfig_ok_decoded {env : Env} {raw : Bytes} {c : Config}
    (h : parseConfig env raw = .ok c) :
    ∃ result, yamlUnmarshal env raw seedConfig = .ok result ∧ validateConfig env result = .ok c := by
  unfold parseConfig at h
  split at h
  · cases h
  · rename_i result hres
    exact ⟨result, hres, h⟩

/-- One entry passes the loop body exactly when it is not nil, sets exactly one
source, and a mirrorlist it names is readable. -/
theorem checkRepo_ok_iff (env : Env) (name : String) (repo : Option Repo) :
    checkRepo env name repo = .ok () ↔
      ∃ r, repo = some r ∧ exactlyOneSource r ∧
        (r.Mirrorlist ≠ "" → env.access r.Mirrorlist R_OK = true) := by
  cases repo with
  | none => simp [checkRepo]
  | some r =>
    obtain ⟨url, urls, ml, t1, t2⟩ := r
    simp only [checkRepo, exactlyOneSource, sourceCount, Option.some.injEq, exists_eq_left']
    by_cases h1 : url = "" <;> by_cases h2 : urls = [] <;> by_cases h3 : ml = "" <;>
      cases ha : env.access ml R_OK <;> cases hu : env.currentUser <;>
      simp [h1, h2, h3, ha, List.length_pos]

/-- The logged loop body computes the result of the loop body. -/
theorem checkRepoLogged_fst (env : Env) (name : String) (repo : Option Repo) :
    (checkRepoLogged env name repo).1 = checkRepo env name repo := by
  cases repo with
  | none => rfl
  | some r =>
    obtain ⟨url, urls, ml, t1, t2⟩ := r
    simp only [checkRepoLogged, checkRepo]
    by_cases h1 : url = "" <;> by_cases h2 : urls = [] <;> by_cases h3 : ml = "" <;>
      cases ha : env.access ml R_OK <;> cases hu : env.currentUser <;>
      simp [h1, h2, h3, ha, List.length_pos]

/-- The loop body consults the host only through `access` and `currentUser`. -/
theorem checkRepo_congr {env1 env2 : Env} (haccess : env1.access = env2.access)
    (huser : env1.currentUser = env2.currentUser) (name : String) (repo : Option Repo) :
    checkRepo env1 name repo = checkRepo env2 name repo := by
  cases repo with
  | none => rfl
  | some r => simp only [checkRepo, haccess, huser]

theorem checkRepos_congr {env1 env2 : Env} (haccess : env1.access = env2.access)
    (huser : env1.currentUser = env2.currentUser) (repos : List (String × Option Repo)) :
    checkRepos env1 repos = checkRepos env2 repos := by
  induction repos with
  | nil => rfl
  | cons e rest ih =>
    obtain ⟨name, repo⟩ := e
    simp only [checkRepos, checkRepo_congr haccess huser, ih]

/-- The loop ends with the diagnostic of the first entry, in iteration order,
that fails the loop body. -/
theorem checkRepos_first_failure (env : Env) (before after : List (String × Option Repo))
    (name : String) (repo : Option Repo) (d : Fatal)
    (hbefore : ∀ e ∈ before, checkRepo env e.1 e.2 = .ok ())
    (hfail : checkRepo env name repo = .error d) :
    checkRepos env (before ++ (name, repo) :: after) = .error d := by
  induction before with
  | nil => simp [checkRepos, hfail]
  | cons e rest ih =>
    obtain ⟨n, r⟩ := e
    have hhead : checkRepo env n r = .ok () := hbefore (n, r) (List.mem_cons_self _ _)
    have htail : ∀ e ∈ rest, checkRepo env e.1 e.2 = .ok () :=
      fun e he => hbefore e (List.mem_cons_of_mem _ he)
    simp only [List.cons_append, checkRepos, hhead]
    exact ih htail

theorem checkRepos_ok_iff (env : Env) (repos : List (String × Option Repo)) :
    checkRepos env repos = .ok () ↔ ∀ e ∈ repos, checkRepo env e.1 e.2 = .ok () := by
  induction repos with
  | nil => simp [checkRepos]
  | cons e rest ih =>
    obtain ⟨name, repo⟩ := e
    simp only [checkRepos, List.mem_cons, forall_eq_or_imp]
    cases h : checkRepo env name repo with
    | error d => simp
    | ok u => simpa using ih

theorem setDefaultValues_Cron (p : RefreshPeriod) : (setDefaultValues p).Cron = p.Cron := by
  unfold setDefaultValues
  by_cases h1 : p.TTLUnaccessed = 0 <;> by_cases h2 : p.TTLUnupdated = 0 <;> simp [h1, h2]

theorem setDefaultValues_TTLUnaccessed (p : RefreshPeriod) :
    (setDefaultValues p).TTLUnaccessed = if p.TTLUnaccessed = 0 then 30 else p.TTLUnaccessed := by
  unfold setDefaultValues
  by_cases h1 : p.TTLUnaccessed = 0 <;> by_cases h2 : p.TTLUnupdated = 0 <;>
    simp [h1, h2, DefaultTTLUnaccessed]

theorem setDefaultValues_TTLUnupdated (p : RefreshPeriod) :
    (setDefaultValues p).TTLUnupdated = if p.TTLUnupdated = 0 then 200 else p.TTLUnupdated := by
  unfold setDefaultValues
  by_cases h1 : p.TTLUnaccessed = 0 <;> by_cases h2 : p.TTLUnupdated = 0 <;>
    simp [h1, h2, DefaultTTLUnupdated]

/-- The validation steps once the repository loop, the purge check and the
cache-directory probe have passed: only the prefetch block is left. -/
theorem validateConfig_prefetch_stage {env : Env} {result : Config}
    (hrepos : checkRepos env result.Repos = .ok ())
    (hpurge : result.PurgeFilesAfter = 0 ∨ 600 ≤ result.PurgeFilesAfter)
    (hcache : env.access result.CacheDir (R_OK ||| W_OK) = true) :
    validateConfig env result =
      match result.Prefetch with
      | none => .ok result
      | some prefetch =>
        if (setDefaultValues prefetch).TTLUnaccessed < 0 then .error .ttlUnaccessedTooLow
        else if (setDefaultValues prefetch).TTLUnupdated < 0 then .error .ttlUnupdatedTooLow
        else if env.cronParse (setDefaultValues prefetch).Cron = false then .error .invalidCron
        else .ok { result with Prefetch := some (setDefaultValues prefetch) } := by
  have hp : ¬ (result.PurgeFilesAfter < 10 * 60 ∧ result.PurgeFilesAfter ≠ 0) := by omega
  simp only [validateConfig, hrepos, hp, hcache, if_false]
  simp

/-- What a successful run of the validation steps has checked and returns. -/
theorem validateConfig_ok_iff (env : Env) (result c : Config) :
    validateConfig env result = .ok c ↔
      checkRepos env result.Repos = .ok () ∧
      (result.PurgeFilesAfter = 0 ∨ 600 ≤ result.PurgeFilesAfter) ∧
      env.access result.CacheDir (R_OK ||| W_OK) = true ∧
      prefetchAcceptable env result.Prefetch ∧
      c = { result with Prefetch := result.Prefetch.map setDefaultValues } := by
  constructor
  · intro h
    unfold validateConfig at h
    split at h
    · cases h
    · rename_i u hrepos
      split at h
      · cases h
      · rename_i hpurge
        have hp : result.PurgeFilesAfter = 0 ∨ 600 ≤ result.PurgeFilesAfter := by omega
        split at h
        · split at h <;> cases h
        · rename_i hcache
          have hc : env.access result.CacheDir (R_OK ||| W_OK) = true := by simpa using hcache
          refine ⟨by cases u; exact hrepos, hp, hc, ?_⟩
          cases hpre : result.Prefetch with
          | none =>
            simp only [hpre] at h
            cases h
            refine ⟨trivial, ?_⟩
            cases result
            simp_all
          | some p =>
            simp only [hpre] at h
            split at h
            · cases h
            · rename_i ha
              split at h
              · cases h
              · rename_i hb
                split at h
                · cases h
                · rename_i hcron
                  cases h
                  have ha2 := setDefaultValues_TTLUnaccessed p
                  have hb2 := setDefaultValues_TTLUnupdated p
                  have hc2 := setDefaultValues_Cron p
                  refine ⟨⟨?_, ?_, ?_⟩, by simp⟩
                  · by_cases h0 : p.TTLUnaccessed = 0
                    · omega
                    · rw [if_neg h0] at ha2; omega
                  · by_cases h0 : p.TTLUnupdated = 0
                    · omega
                    · rw [if_neg h0] at hb2; omega
                  · rw [hc2] at hcron; simpa using hcron
  · rintro ⟨hrepos, hpurge, hcache, hpre, hc⟩
    rw [validateConfig_prefetch_stage hrepos hpurge hcache, hc]
    cases hp : result.Prefetch with
    | none =>
      cases result
      simp_all
    | some p =>
      rw [hp] at hpre
      obtain ⟨ha, hb, hcron⟩ := hpre
      have ha2 := setDefaultValues_TTLUnaccessed p
      have hb2 := setDefaultValues_TTLUnupdated p
      have hc2 := setDefaultValues_Cron p
      have ha3 : ¬ (setDefaultValues p).TTLUnaccessed < 0 := by
        rw [ha2]; split <;> omega
      have hb3 : ¬ (setDefaultValues p).TTLUnupdated < 0 := by
        rw [hb2]; split <;> omega
      simp [ha3, hb3, hc2, hcron]

/-! ## Lemmas on the text codec -/

/-- On text with only ASCII bytes `strings.ToLower` is the bytewise lowering of
the letters `A`..`Z`. -/
theorem ToLower_ascii (mapLower : Bytes → Bytes) (s : Bytes)
    (h : s.all (fun c => decide (c < RuneSelf)) = true) :
    ToLower mapLower s = s.map lowerByte := by
  unfold ToLower
  rw [if_pos h]
  split
  · rfl
  · rename_i hany
    have hfix : ∀ c ∈ s, lowerByte c = c := by
      intro c hc
      unfold lowerByte
      split
      · rename_i hup
        exact absurd (List.any_eq_true.mpr ⟨c, hc, by simpa using hup⟩) hany
      · rfl
    calc s = s.map id := (List.map_id s).symm
      _ = s.map lowerByte := List.map_congr_left (fun c hc => (hfix c hc).symm)

/-- The result of `UnmarshalText` in terms of the lower-cased text. -/
theorem UnmarshalText_cases (mapLower : Bytes → Bytes) (a : SocketActivation) (text : Bytes) :
    (ToLower mapLower text = bytesOf "off" ∨ ToLower mapLower text = bytesOf "false" →
        UnmarshalText mapLower a text = (ActivationOff, none)) ∧
      (ToLower mapLower text = bytesOf "may" ∨ ToLower mapLower text = bytesOf "auto" →
        UnmarshalText mapLower a text = (ActivationMay, none)) ∧
      (ToLower mapLower text = bytesOf "must" ∨ ToLower mapLower text = bytesOf "true" →
        UnmarshalText mapLower a text = (ActivationMust, none)) ∧
      (ToLower mapLower text ∉
          [bytesOf "off", bytesOf "false", bytesOf "may", bytesOf "auto", bytesOf "must",
            bytesOf "true"] →
        UnmarshalText mapLower a text = (a, some "Ivalid SocketActivation value")) := by
  refine ⟨?_, ?_, ?_, ?_⟩
  · rintro (h | h) <;> simp only [UnmarshalText, h] <;> rfl
  · rintro (h | h) <;> simp only [UnmarshalText, h] <;> rfl
  · rintro (h | h) <;> simp only [UnmarshalText, h] <;> rfl
  · intro h
    simp only [List.mem_cons, List.mem_singleton, not_or, List.not_mem_nil, not_false_eq_true,
      and_true] at h
    obtain ⟨h1, h2, h3, h4, h5, h6⟩ := h
    simp [UnmarshalText, h1, h2, h3, h4, h5, h6]

/-! ## Repository entries -/

/-- C1, as stated, fails: an entry whose only source is a mirrorlist sets exactly
one of the three sources, yet on a host where the file is not readable the loop
body ends with the unreadable-mirrorlist diagnostic instead of succeeding. -/
theorem checkRepo_exactlyOne_counterexample :
    exactlyOneSource mirrorlistRepo ∧
      checkRepo (envClosed emptyDocument) "core" (some mirrorlistRepo) =
        .error (.mirrorlistUnreadable "/etc/pacman.d/mirrorlist" "core" "pacoloco") ∧
      ¬ (checkRepo (envClosed emptyDocument) "core" (some mirrorlistRepo) = .ok () ↔
          exactlyOneSource mirrorlistRepo) := by
  refine ⟨by decide, rfl, ?_⟩
  intro h
  have hok := h.mpr (by decide)
  have herr : checkRepo (envClosed emptyDocument) "core" (some mirrorlistRepo) =
      .error (.mirrorlistUnreadable "/etc/pacman.d/mirrorlist" "core" "pacoloco") := rfl
  rw [herr] at hok
  cases hok

/-- C1, amended: the per-repository validation of `parseConfig` succeeds on an
entry if and only if exactly one of `url` non-empty, `urls` non-empty,
`mirrorlist` non-empty holds and, when it is the mirrorlist, the read-access
probe on that path succeeds. -/
theorem checkRepo_succeeds_iff (env : Env) (name : String) (repo : Repo) :
    checkRepo env name (some repo) = .ok () ↔
      exactlyOneSource repo ∧
        (repo.Mirrorlist ≠ "" → env.access repo.Mirrorlist R_OK = true) := by
  simpa using checkRepo_ok_iff env name (some repo)

/-! ## The returned configuration -/

/-- C2: every configuration that `parseConfig` returns has, for each entry of
`Repos`, a non-nil repository with exactly one source set, a purge interval that
is 0 or at least 600, and, when `Prefetch` is present, two non-negative TTLs and
a cron string that the cron parser accepts. -/
theorem parseConfig_returns_valid (env : Env) (raw : Bytes) (c : Config)
    (h : parseConfig env raw = .ok c) :
    (∀ e ∈ c.Repos, ∃ r, e.2 = some r ∧ exactlyOneSource r) ∧
      (c.PurgeFilesAfter = 0 ∨ 600 ≤ c.PurgeFilesAfter) ∧
      (∀ p, c.Prefetch = some p →
        0 ≤ p.TTLUnaccessed ∧ 0 ≤ p.TTLUnupdated ∧ env.cronParse p.Cron = true) := by
  obtain ⟨result, -, hval⟩ := parseConfig_ok_decoded h
  obtain ⟨hrepos, hpurge, -, hpre, hc⟩ := (validateConfig_ok_iff env result c).mp hval
  subst hc
  refine ⟨?_, hpurge, ?_⟩
  · intro e he
    obtain ⟨r, hr, hone, -⟩ :=
      (checkRepo_ok_iff env e.1 e.2).mp ((checkRepos_ok_iff env result.Repos).mp hrepos e he)
    exact ⟨r, hr, hone⟩
  · intro p hp
    cases hq : result.Prefetch with
    | none => simp [hq] at hp
    | some q =>
      simp only [hq, Option.map_some', Option.some.injEq] at hp
      rw [hq] at hpre
      obtain ⟨ha, hb, hcron⟩ := hpre
      subst hp
      rw [setDefaultValues_TTLUnaccessed, setDefaultValues_TTLUnupdated, setDefaultValues_Cron]
      refine ⟨?_, ?_, hcron⟩
      · split <;> omega
      · split <;> omega

/-- C2 at `sampleDocument`: the run returns a configuration, and it satisfies the
invariants. -/
theorem parseConfig_returns_valid_witness :
    ∃ c, parseConfig (envOpen sampleDocument) [] = .ok c ∧
      (∀ e ∈ c.Repos, ∃ r, e.2 = some r ∧ exactlyOneSource r) ∧
      (c.PurgeFilesAfter = 0 ∨ 600 ≤ c.PurgeFilesAfter) ∧
      (∀ p, c.Prefetch = some p →
        0 ≤ p.TTLUnaccessed ∧ 0 ≤ p.TTLUnupdated ∧
          (envOpen sampleDocument).cronParse p.Cron = true) :=
  ⟨{ sampleDecoded with
      Prefetch := some { Cron := "0 0 3 * * * *", TTLUnaccessed := 30, TTLUnupdated := 200 } },
    rfl, parseConfig_returns_valid (envOpen sampleDocument) [] _ rfl⟩

/-! ## The purge interval -/

/-- C3: with the repository loop, the cache-directory probe and the prefetch
checks passing, `parseConfig` ends with the purge-interval diagnostic if and only
if the interval `p` is non-zero and below 600, and returns a configuration if and
only if `p` is 0 or at least 600. -/
theorem purge_interval_check (env : Env) (raw : Bytes) (result : Config)
    (hdec : yamlUnmarshal env raw seedConfig = .ok result)
    (hrepos : checkRepos env result.Repos = .ok ())
    (hcache : env.access result.CacheDir (R_OK ||| W_OK) = true)
    (hpre : prefetchAcceptable env result.Prefetch) :
    (parseConfig env raw = .error (.purgeTooLow result.PurgeFilesAfter) ↔
        result.PurgeFilesAfter ≠ 0 ∧ result.PurgeFilesAfter < 600) ∧
      ((∃ c, parseConfig env raw = .ok c) ↔
        result.PurgeFilesAfter = 0 ∨ 600 ≤ result.PurgeFilesAfter) := by
  rw [parseConfig_of_unmarshal hdec]
  by_cases hp : result.PurgeFilesAfter = 0 ∨ 600 ≤ result.PurgeFilesAfter
  · have hok := (validateConfig_ok_iff env result _).mpr ⟨hrepos, hp, hcache, hpre, rfl⟩
    rw [hok]
    refine ⟨⟨nofun, fun h => absurd hp (by omega)⟩, ⟨fun _ => hp, fun _ => ⟨_, rfl⟩⟩⟩
  · have hlow : result.PurgeFilesAfter < 10 * 60 ∧ result.PurgeFilesAfter ≠ 0 := by omega
    have herr : validateConfig env result = .error (.purgeTooLow result.PurgeFilesAfter) := by
      unfold validateConfig
      simp only [hrepos]
      rw [if_pos hlow]
    rw [herr]
    refine ⟨⟨fun _ => by omega, fun _ => rfl⟩, ⟨?_, fun h => absurd h hp⟩⟩
    rintro ⟨c, hc⟩
    cases hc

/-- C3 at `sampleDocument`, whose purge interval is 3600: accepted, and not
rejected as too short. -/
theorem purge_interval_check_witness :
    yamlUnmarshal (envOpen sampleDocument) [] seedConfig = .ok sampleDecoded ∧
      checkRepos (envOpen sampleDocument) sampleDecoded.Repos = .ok () ∧
      (envOpen sampleDocument).access sampleDecoded.CacheDir (R_OK ||| W_OK) = true ∧
      prefetchAcceptable (envOpen sampleDocument) sampleDecoded.Prefetch ∧
      ((parseConfig (envOpen sampleDocument) [] =
          .error (.purgeTooLow sampleDecoded.PurgeFilesAfter) ↔
          sampleDecoded.PurgeFilesAfter ≠ 0 ∧ sampleDecoded.PurgeFilesAfter < 600) ∧
        ((∃ c, parseConfig (envOpen sampleDocument) [] = .ok c) ↔
          sampleDecoded.PurgeFilesAfter = 0 ∨ 600 ≤ sampleDecoded.PurgeFilesAfter)) :=
  ⟨rfl, rfl, rfl, ⟨by decide, by decide, rfl⟩,
    purge_interval_check (envOpen sampleDocument) [] sampleDecoded rfl rfl rfl
      ⟨by decide, by decide, rfl⟩⟩

/-! ## The prefetch TTLs -/

/-- C4: when the repository loop, the purge check and the cache-directory probe
pass and the prefetch schedule is present with a negative `TTLUnaccessed` or a
negative `TTLUnupdated`, `parseConfig` ends with an invalid-TTL diagnostic (that
of `ttl_unaccessed_in_days` when that one is negative, otherwise that of
`ttl_unupdated_in_days`), whatever the cron string and the cron parser. -/
theorem negative_ttl_rejected (env : Env) (raw : Bytes) (result : Config)
    (prefetch : RefreshPeriod)
    (hdec : yamlUnmarshal env raw seedConfig = .ok result)
    (hrepos : checkRepos env result.Repos = .ok ())
    (hpurge : result.PurgeFilesAfter = 0 ∨ 600 ≤ result.PurgeFilesAfter)
    (hcache : env.access result.CacheDir (R_OK ||| W_OK) = true)
    (hpre : result.Prefetch = some prefetch)
    (hneg : prefetch.TTLUnaccessed < 0 ∨ prefetch.TTLUnupdated < 0) :
    parseConfig env raw =
      .error (if prefetch.TTLUnaccessed < 0 then Fatal.ttlUnaccessedTooLow
        else Fatal.ttlUnupdatedTooLow) := by
  rw [parseConfig_of_unmarshal hdec, validateConfig_prefetch_stage hrepos hpurge hcache, hpre]
  simp only [setDefaultValues_TTLUnaccessed, setDefaultValues_TTLUnupdated]
  by_cases ha : prefetch.TTLUnaccessed < 0
  · have h0 : prefetch.TTLUnaccessed ≠ 0 := by omega
    simp [ha, h0]
  · have hb : prefetch.TTLUnupdated < 0 := by omega
    have h0 : prefetch.TTLUnupdated ≠ 0 := by omega
    have ha2 : ¬ (if prefetch.TTLUnaccessed = 0 then (30 : Int) else prefetch.TTLUnaccessed) < 0 := by
      split <;> omega
    simp [ha, ha2, hb, h0]

/-- C4 at `negativeTTLDocument` (`ttl_unupdated_in_days: -1`, cron `not a cron`):
the run ends with the `ttl_unupdated_in_days` diagnostic. -/
theorem negative_ttl_rejected_witness :
    yamlUnmarshal (envOpen negativeTTLDocument) [] seedConfig = .ok negativeTTLDecoded ∧
      parseConfig (envOpen negativeTTLDocument) [] = .error Fatal.ttlUnupdatedTooLow :=
  ⟨rfl,
    negative_ttl_rejected (envOpen negativeTTLDocument) [] negativeTTLDecoded
      { Cron := "not a cron", TTLUnaccessed := 5, TTLUnupdated := -1 }
      rfl rfl (by decide) rfl rfl (by decide)⟩

/-- C5: when the earlier checks pass, the prefetch schedule is present, its cron
string parses and neither TTL is negative, `parseConfig` returns the decoded
configuration with `TTLUnaccessed` replaced by 30 if it was 0 and `TTLUnupdated`
replaced by 200 if it was 0. -/
theorem zero_ttl_defaulted (env : Env) (raw : Bytes) (result : Config)
    (prefetch : RefreshPeriod)
    (hdec : yamlUnmarshal env raw seedConfig = .ok result)
    (hrepos : checkRepos env result.Repos = .ok ())
    (hpurge : result.PurgeFilesAfter = 0 ∨ 600 ≤ result.PurgeFilesAfter)
    (hcache : env.access result.CacheDir (R_OK ||| W_OK) = true)
    (hpre : result.Prefetch = some prefetch)
    (hcron : env.cronParse prefetch.Cron = true)
    (ha : 0 ≤ prefetch.TTLUnaccessed) (hb : 0 ≤ prefetch.TTLUnupdated) :
    parseConfig env raw =
      .ok { result with
        Prefetch := some
          { Cron := prefetch.Cron
            TTLUnaccessed := if prefetch.TTLUnaccessed = 0 then 30 else prefetch.TTLUnaccessed
            TTLUnupdated := if prefetch.TTLUnupdated = 0 then 200 else prefetch.TTLUnupdated } } := by
  have hval := (validateConfig_ok_iff env result _).mpr
    ⟨hrepos, hpurge, hcache, by rw [hpre]; exact ⟨ha, hb, hcron⟩, rfl⟩
  rw [parseConfig_of_unmarshal hdec, hval, hpre]
  have hp : setDefaultValues prefetch =
      { Cron := prefetch.Cron
        TTLUnaccessed := if prefetch.TTLUnaccessed = 0 then 30 else prefetch.TTLUnaccessed
        TTLUnupdated := if prefetch.TTLUnupdated = 0 then 200 else prefetch.TTLUnupdated } := by
    rw [← setDefaultValues_TTLUnaccessed, ← setDefaultValues_TTLUnupdated,
      ← setDefaultValues_Cron]
  simp [hp]

/-- C5 at `sampleDocument`, whose schedule leaves both TTLs at 0: the returned
configuration carries 30 and 200. -/
theorem zero_ttl_defaulted_witness :
    yamlUnmarshal (envOpen sampleDocument) [] seedConfig = .ok sampleDecoded ∧
      parseConfig (envOpen sampleDocument) [] =
        .ok { sampleDecoded with
          Prefetch := some { Cron := "0 0 3 * * * *", TTLUnaccessed := 30, TTLUnupdated := 200 } } :=
  ⟨rfl,
    zero_ttl_defaulted (envOpen sampleDocument) [] sampleDecoded
      { Cron := "0 0 3 * * * *", TTLUnaccessed := 0, TTLUnupdated := 0 }
      rfl rfl (by decide) rfl rfl rfl (by decide) (by decide)⟩

/-! ## The SocketActivation text codec -/

/-- C6: for each of `ActivationOff`, `ActivationMay`, `ActivationMust`,
`MarshalText` succeeds and `UnmarshalText` on the text it returns succeeds and
stores that value, whatever the receiver held before. -/
theorem marshal_unmarshal_roundtrip (mapLower : Bytes → Bytes) (a v : SocketActivation)
    (hv : v = ActivationOff ∨ v = ActivationMay ∨ v = ActivationMust) :
    ∃ text, MarshalText v = .ok text ∧ UnmarshalText mapLower a text = (v, none) := by
  rcases hv with rfl | rfl | rfl <;> exact ⟨_, rfl, rfl⟩

/-- C6 at `ActivationMust`, decoding into a receiver that held `ActivationOff`. -/
theorem marshal_unmarshal_roundtrip_witness :
    ∃ text, MarshalText ActivationMust = .ok text ∧
      UnmarshalText (fun s => s) ActivationOff text = (ActivationMust, none) :=
  marshal_unmarshal_roundtrip (fun s => s) ActivationOff ActivationMust (Or.inr (Or.inr rfl))

/-- C7: `UnmarshalText` returns a nil error if and only if the lower-cased text
is one of `off`, `false`, `may`, `auto`, `must`, `true`; it then stores
`ActivationOff` for `off`/`false`, `ActivationMay` for `may`/`auto` and
`ActivationMust` for `must`/`true`; any other text gives the error.  The outcome
depends on the text only through `strings.ToLower`, which on ASCII text lowers
the letters `A`..`Z` and changes nothing else. -/
theorem unmarshalText_spec (mapLower : Bytes → Bytes) (a : SocketActivation) (text : Bytes) :
    ((UnmarshalText mapLower a text).2 = none ↔
        ToLower mapLower text ∈
          [bytesOf "off", bytesOf "false", bytesOf "may", bytesOf "auto", bytesOf "must",
            bytesOf "true"]) ∧
      (ToLower mapLower text = bytesOf "off" ∨ ToLower mapLower text = bytesOf "false" →
        UnmarshalText mapLower a text = (ActivationOff, none)) ∧
      (ToLower mapLower text = bytesOf "may" ∨ ToLower mapLower text = bytesOf "auto" →
        UnmarshalText mapLower a text = (ActivationMay, none)) ∧
      (ToLower mapLower text = bytesOf "must" ∨ ToLower mapLower text = bytesOf "true" →
        UnmarshalText mapLower a text = (ActivationMust, none)) ∧
      (ToLower mapLower text ∉
          [bytesOf "off", bytesOf "false", bytesOf "may", bytesOf "auto", bytesOf "must",
            bytesOf "true"] →
        UnmarshalText mapLower a text = (a, some "Ivalid SocketActivation value")) ∧
      (text.all (fun c => decide (c < 128)) = true →
        ToLower mapLower text = text.map lowerByte) := by
  obtain ⟨hoff, hmay, hmust, hbad⟩ := UnmarshalText_cases mapLower a text
  refine ⟨⟨?_, ?_⟩, hoff, hmay, hmust, hbad, ToLower_ascii mapLower text⟩
  · intro hnil
    by_contra hnot
    rw [hbad hnot] at hnil
    cases hnil
  · intro hmem
    simp only [List.mem_cons, List.mem_singleton, List.not_mem_nil, or_false] at hmem
    rcases hmem with h | h | h | h | h | h
    · rw [hoff (Or.inl h)]
    · rw [hoff (Or.inr h)]
    · rw [hmay (Or.inl h)]
    · rw [hmay (Or.inr h)]
    · rw [hmust (Or.inl h)]
    · rw [hmust (Or.inr h)]

/-- C7 at the texts `AuTo` and `yes`: the first decodes to `ActivationMay`, the
second is an error. -/
theorem unmarshalText_spec_witness :
    UnmarshalText (fun s => s) ActivationOff (bytesOf "AuTo") = (ActivationMay, none) ∧
      UnmarshalText (fun s => s) ActivationMust (bytesOf "yes") =
        (ActivationMust, some "Ivalid SocketActivation value") :=
  ⟨(unmarshalText_spec (fun s => s) ActivationOff (bytesOf "AuTo")).2.2.1 (Or.inr rfl),
    (unmarshalText_spec (fun s => s) ActivationMust (bytesOf "yes")).2.2.2.2.1 (by decide)⟩

/-- C8: `MarshalText` returns exactly `off` for `ActivationOff`, `may` for
`ActivationMay`, `must` for `ActivationMust`, and for every other integer value
the error, with no text. -/
theorem marshalText_spec (a : SocketActivation) :
    MarshalText ActivationOff = .ok [0x6f, 0x66, 0x66] ∧
      MarshalText ActivationMay = .ok [0x6d, 0x61, 0x79] ∧
      MarshalText ActivationMust = .ok [0x6d, 0x75, 0x73, 0x74] ∧
      (a ≠ ActivationOff ∧ a ≠ ActivationMay ∧ a ≠ ActivationMust →
        MarshalText a = .error "Invalid value") := by
  refine ⟨rfl, rfl, rfl, ?_⟩
  rintro ⟨h0, h1, h2⟩
  simp [MarshalText, h0, h1, h2]

/-- C8 at the values 3 and -1, which are none of the three constants. -/
theorem marshalText_spec_witness :
    MarshalText 3 = .error "Invalid value" ∧ MarshalText (-1) = .error "Invalid value" :=
  ⟨(marshalText_spec 3).2.2.2 (by decide), (marshalText_spec (-1)).2.2.2 (by decide)⟩

/-! ## Defaults -/

/-- C9: when `parseConfig` returns a configuration, a document without `port`
gives `Port = 9129`, one without `cache_dir` gives the default cache directory,
one without `socket_activation` gives `ActivationOff`, and one without
`prefetch` gives a nil `Prefetch`. -/
theorem defaults_when_omitted (env : Env) (raw : Bytes) (doc : Document) (c : Config)
    (hdoc : env.yamlDecode raw = .ok doc) (h : parseConfig env raw = .ok c) :
    (doc.port = none → c.Port = 9129) ∧
      (doc.cache_dir = none → c.CacheDir = "/var/cache/pacoloco") ∧
      (doc.socket_activation = none → c.SocketActivation = ActivationOff) ∧
      (doc.prefetch = none → c.Prefetch = none) := by
  obtain ⟨result, hdec, hval⟩ := parseConfig_ok_decoded h
  obtain ⟨-, -, -, -, hc⟩ := (validateConfig_ok_iff env result c).mp hval
  simp only [yamlUnmarshal, hdoc] at hdec
  obtain ⟨hdir, hport, hpre, hact⟩ := overlay_ok hdec
  subst hc
  refine ⟨?_, ?_, ?_, ?_⟩
  · intro hnone
    simp [hport, hnone, seedConfig, DefaultPort]
  · intro hnone
    simp [hdir, hnone, seedConfig, DefaultCacheDir]
  · intro hnone
    simp [hact hnone, seedConfig, DefaultActivation]
  · intro hnone
    simp [hpre, hnone, seedConfig]

/-- C9 at the document with no key at all: the run returns the seeded
configuration, with port 9129, the default cache directory, `ActivationOff` and
no prefetch. -/
theorem defaults_when_omitted_witness :
    parseConfig (envOpen emptyDocument) [] = .ok seedConfig ∧
      (seedConfig.Port = 9129 ∧ seedConfig.CacheDir = "/var/cache/pacoloco" ∧
        seedConfig.SocketActivation = ActivationOff ∧ seedConfig.Prefetch = none) :=
  ⟨rfl,
    have h := defaults_when_omitted (envOpen emptyDocument) [] emptyDocument seedConfig rfl rfl
    ⟨h.1 rfl, h.2.1 rfl, h.2.2.1 rfl, h.2.2.2 rfl⟩⟩

/-! ## The cron string -/

/-- C10, as stated, fails: with every earlier check passing and valid TTLs, the
cron string `not a cron` is rejected with the invalid-cron diagnostic, and the
text of that diagnostic does not contain `not a cron`. -/
theorem invalid_cron_counterexample :
    yamlUnmarshal (envOpen badCronDocument) [] seedConfig = .ok badCronDecoded ∧
      (envOpen badCronDocument).cronParse "not a cron" = false ∧
      parseConfig (envOpen badCronDocument) [] = .error Fatal.invalidCron ∧
      ¬ Fatal.invalidCron.mentions "not a cron" := by
  refine ⟨rfl, rfl, rfl, ?_⟩
  unfold Fatal.mentions
  set_option maxRecDepth 1000000 in decide

/-- C10, amended: when the earlier checks pass, the prefetch schedule is present
with non-negative TTLs and the cron parser rejects its cron string,
`parseConfig` ends with the invalid-cron diagnostic, whose text is one fixed
message, the same for every cron string. -/
theorem invalid_cron_rejected (env : Env) (raw : Bytes) (result : Config)
    (prefetch : RefreshPeriod)
    (hdec : yamlUnmarshal env raw seedConfig = .ok result)
    (hrepos : checkRepos env result.Repos = .ok ())
    (hpurge : result.PurgeFilesAfter = 0 ∨ 600 ≤ result.PurgeFilesAfter)
    (hcache : env.access result.CacheDir (R_OK ||| W_OK) = true)
    (hpre : result.Prefetch = some prefetch)
    (ha : 0 ≤ prefetch.TTLUnaccessed) (hb : 0 ≤ prefetch.TTLUnupdated)
    (hcron : env.cronParse prefetch.Cron = false) :
    parseConfig env raw = .error Fatal.invalidCron ∧
      Fatal.invalidCron.message =
        "Invalid cron string (if you don't know how to compose them, there are many online utilities for doing so). Please check https://github.com/gorhill/cronexpr#implementation for documentation." := by
  refine ⟨?_, rfl⟩
  rw [parseConfig_of_unmarshal hdec, validateConfig_prefetch_stage hrepos hpurge hcache, hpre]
  have ha2 : ¬ (setDefaultValues prefetch).TTLUnaccessed < 0 := by
    rw [setDefaultValues_TTLUnaccessed]; split <;> omega
  have hb2 : ¬ (setDefaultValues prefetch).TTLUnupdated < 0 := by
    rw [setDefaultValues_TTLUnupdated]; split <;> omega
  simp [ha2, hb2, setDefaultValues_Cron, hcron]

/-- C10 (amended) at `badCronDocument`. -/
theorem invalid_cron_rejected_witness :
    yamlUnmarshal (envOpen badCronDocument) [] seedConfig = .ok badCronDecoded ∧
      (envOpen badCronDocument).cronParse "not a cron" = false ∧
      parseConfig (envOpen badCronDocument) [] = .error Fatal.invalidCron :=
  ⟨rfl, rfl,
    (invalid_cron_rejected (envOpen badCronDocument) [] badCronDecoded
      { Cron := "not a cron", TTLUnaccessed := 5, TTLUnupdated := 7 }
      rfl rfl (by decide) rfl rfl (by decide) (by decide) rfl).1⟩

/-! ## Conflicting sources and the mirrorlist probe -/

/-- C11: an entry that sets two or more of `url`, `urls`, `mirrorlist` ends the
loop body with the diagnostic of the first conflicting pair in the order
url/urls, url/mirrorlist, urls/mirrorlist (with all three set: url/urls); the
body makes no call of `unix.Access` on the way, and each of the three messages
contains the repository name and the names of its pair. -/
theorem conflicting_sources_rejected (env : Env) (name : String) (repo : Repo)
    (h : 2 ≤ sourceCount repo) :
    checkRepo env name (some repo) =
        .error (if repo.URL ≠ "" ∧ repo.URLs ≠ [] then Fatal.urlAndUrls name
          else if repo.URL ≠ "" ∧ repo.Mirrorlist ≠ "" then Fatal.urlAndMirrorlist name
          else Fatal.urlsAndMirrorlist name) ∧
      (checkRepoLogged env name (some repo)).2 = [] ∧
      ((Fatal.urlAndUrls name).mentions name ∧
        (Fatal.urlAndUrls name).mentions "url and urls") ∧
      ((Fatal.urlAndMirrorlist name).mentions name ∧
        (Fatal.urlAndMirrorlist name).mentions "url and mirrorlist") ∧
      ((Fatal.urlsAndMirrorlist name).mentions name ∧
        (Fatal.urlsAndMirrorlist name).mentions "urls and mirrorlist") := by
  refine ⟨?_, ?_, ⟨?_, ?_⟩, ⟨?_, ?_⟩, ⟨?_, ?_⟩⟩
  · obtain ⟨url, urls, ml, t1, t2⟩ := repo
    simp only [sourceCount] at h
    simp only [checkRepo]
    by_cases h1 : url = "" <;> by_cases h2 : urls = [] <;> by_cases h3 : ml = "" <;>
      simp [h1, h2, h3, List.length_pos] at h ⊢
  · obtain ⟨url, urls, ml, t1, t2⟩ := repo
    simp only [sourceCount] at h
    simp only [checkRepoLogged]
    by_cases h1 : url = "" <;> by_cases h2 : urls = [] <;> by_cases h3 : ml = "" <;>
      simp [h1, h2, h3, List.length_pos] at h ⊢
  · exact Fatal.mentions_of_message _ "repo '" name
      "' specifies both url and urls parameters, please use only one of them" rfl
  · exact Fatal.mentions_of_message _ ("repo '" ++ name ++ "' specifies both ") _
      " parameters, please use only one of them" (by simp [Fatal.message, String.append_assoc])
  · exact Fatal.mentions_of_message _ "repo '" name
      "' specifies both url and mirrorlist parameter, please use only one of them" rfl
  · exact Fatal.mentions_of_message _ ("repo '" ++ name ++ "' specifies both ") _
      " parameter, please use only one of them" (by simp [Fatal.message, String.append_assoc])
  · exact Fatal.mentions_of_message _ "repo '" name
      "' specifies both urls and mirrorlist parameter, please use only one of them" rfl
  · exact Fatal.mentions_of_message _ ("repo '" ++ name ++ "' specifies both ") _
      " parameter, please use only one of them" (by simp [Fatal.message, String.append_assoc])

/-- C11 at an entry with all three sources set, on a host where no file is
readable: the url/urls diagnostic, and no probe. -/
theorem conflicting_sources_rejected_witness :
    2 ≤ sourceCount conflictingRepo ∧
      checkRepo (envClosed emptyDocument) "core" (some conflictingRepo) =
        .error (Fatal.urlAndUrls "core") ∧
      (checkRepoLogged (envClosed emptyDocument) "core" (some conflictingRepo)).2 = [] :=
  have h := conflicting_sources_rejected (envClosed emptyDocument) "core" conflictingRepo
    (by decide)
  ⟨by decide, h.1, h.2.1⟩

/-- C12: an entry whose only source is a non-empty mirrorlist passes the loop
body if and only if the read probe on that path succeeds, and the body makes
exactly that one call of `unix.Access`; when the probe fails and the user lookup
succeeds, the diagnostic is the unreadable-mirrorlist one, whose message contains
the path, the repository name and the user name.  An entry with an empty
mirrorlist makes no call of `unix.Access`. -/
theorem mirrorlist_probe (env : Env) (name : String) (repo : Repo) :
    (repo.URL = "" ∧ repo.URLs = [] ∧ repo.Mirrorlist ≠ "" →
        (checkRepo env name (some repo) = .ok () ↔ env.access repo.Mirrorlist R_OK = true) ∧
        (checkRepoLogged env name (some repo)).2 = [(repo.Mirrorlist, R_OK)] ∧
        (∀ username, env.access repo.Mirrorlist R_OK = false →
          env.currentUser = .ok username →
          checkRepo env name (some repo) =
            .error (.mirrorlistUnreadable repo.Mirrorlist name username))) ∧
      (∀ username,
        (Fatal.mirrorlistUnreadable repo.Mirrorlist name username).mentions repo.Mirrorlist ∧
        (Fatal.mirrorlistUnreadable repo.Mirrorlist name username).mentions name ∧
        (Fatal.mirrorlistUnreadable repo.Mirrorlist name username).mentions username) ∧
      (repo.Mirrorlist = "" → (checkRepoLogged env name (some repo)).2 = []) := by
  refine ⟨?_, ?_, ?_⟩
  · rintro ⟨h1, h2, h3⟩
    refine ⟨?_, ?_, ?_⟩
    · rw [checkRepo_ok_iff]
      simp only [Option.some.injEq, exists_eq_left', exactlyOneSource, sourceCount]
      simp [h1, h2, h3]
    · simp only [checkRepoLogged]
      cases ha : env.access repo.Mirrorlist R_OK <;> cases hu : env.currentUser <;>
        simp [h1, h2, h3]
    · intro username ha hu
      simp [checkRepo, h1, h2, h3, ha, hu]
  · intro username
    refine ⟨?_, ?_, ?_⟩
    · exact Fatal.mentions_of_message _ "mirrorlist file " _
        (" for repo " ++ name ++ " does not exist or isn't readable for user " ++ username)
        (by simp [Fatal.message, String.append_assoc])
    · exact Fatal.mentions_of_message _ ("mirrorlist file " ++ repo.Mirrorlist ++ " for repo ") _
        (" does not exist or isn't readable for user " ++ username)
        (by simp [Fatal.message, String.append_assoc])
    · exact Fatal.mentions_of_message _
        ("mirrorlist file " ++ repo.Mirrorlist ++ " for repo " ++ name ++
          " does not exist or isn't readable for user ") _ ""
        (by simp [Fatal.message, String.append_assoc])
  · intro h3
    obtain ⟨url, urls, ml, t1, t2⟩ := repo
    simp only at h3
    subst h3
    simp only [checkRepoLogged]
    by_cases h1 : url = "" <;> by_cases h2 : urls = [] <;> simp [h1, h2, List.length_pos]

/-- C12 at the mirrorlist-only entry: accepted where the file is readable,
rejected with path, repository and user where it is not. -/
theorem mirrorlist_probe_witness :
    checkRepo (envOpen emptyDocument) "core" (some mirrorlistRepo) = .ok () ∧
      checkRepo (envClosed emptyDocument) "core" (some mirrorlistRepo) =
        .error (.mirrorlistUnreadable "/etc/pacman.d/mirrorlist" "core" "pacoloco") :=
  ⟨((mirrorlist_probe (envOpen emptyDocument) "core" mirrorlistRepo).1
      ⟨rfl, rfl, by decide⟩).1.mpr rfl,
    ((mirrorlist_probe (envClosed emptyDocument) "core" mirrorlistRepo).1
      ⟨rfl, rfl, by decide⟩).2.2 "pacoloco" rfl rfl⟩

/-! ## The cache directory -/

/-- C13: when the repository loop and the purge check pass and the read+write
probe of the cache directory fails, `parseConfig` returns no configuration: with
the user lookup succeeding it ends with the diagnostic that carries the cache
directory and the user name (both occur in its message), and with the user
lookup failing it ends with the lookup error. -/
theorem cache_dir_probe_failure (env : Env) (raw : Bytes) (result : Config)
    (hdec : yamlUnmarshal env raw seedConfig = .ok result)
    (hrepos : checkRepos env result.Repos = .ok ())
    (hpurge : result.PurgeFilesAfter = 0 ∨ 600 ≤ result.PurgeFilesAfter)
    (hcache : env.access result.CacheDir (R_OK ||| W_OK) = false) :
    (∀ c, parseConfig env raw ≠ .ok c) ∧
      (∀ username, env.currentUser = .ok username →
        parseConfig env raw = .error (.cacheDirUnusable result.CacheDir username)) ∧
      (∀ err, env.currentUser = .error err →
        parseConfig env raw = .error (.userLookup err) ∧ (Fatal.userLookup err).message = err) ∧
      (∀ username,
        (Fatal.cacheDirUnusable result.CacheDir username).mentions result.CacheDir ∧
        (Fatal.cacheDirUnusable result.CacheDir username).mentions username) := by
  have hp : ¬ (result.PurgeFilesAfter < 10 * 60 ∧ result.PurgeFilesAfter ≠ 0) := by omega
  have hval : validateConfig env result =
      match env.currentUser with
      | .error err => .error (.userLookup err)
      | .ok username => .error (.cacheDirUnusable result.CacheDir username) := by
    unfold validateConfig
    simp only [hrepos]
    rw [if_neg hp, if_pos hcache]
  rw [parseConfig_of_unmarshal hdec, hval]
  refine ⟨?_, ?_, ?_, ?_⟩
  · intro c
    cases env.currentUser <;> simp
  · intro username hu
    rw [hu]
  · intro err hu
    rw [hu]
    exact ⟨rfl, rfl⟩
  · intro username
    refine ⟨?_, ?_⟩
    · exact Fatal.mentions_of_message _ "directory " _
        (" does not exist or isn't writable for user " ++ username)
        (by simp [Fatal.message, String.append_assoc])
    · exact Fatal.mentions_of_message _
        ("directory " ++ result.CacheDir ++ " does not exist or isn't writable for user ") _ ""
        (by simp [Fatal.message, String.append_assoc])

/-- C13 at the empty document on a host where the cache directory is not
accessible: the diagnostic carries the directory and the user; where the user
lookup fails as well, the lookup error is the diagnostic. -/
theorem cache_dir_probe_failure_witness :
    parseConfig (envClosed emptyDocument) [] =
        .error (.cacheDirUnusable "/var/cache/pacoloco" "pacoloco") ∧
      parseConfig (envNoUser emptyDocument) [] =
        .error (.userLookup "user: Current not implemented") :=
  ⟨(cache_dir_probe_failure (envClosed emptyDocument) [] seedConfig rfl rfl (by decide) rfl).2.1
      "pacoloco" rfl,
    ((cache_dir_probe_failure (envNoUser emptyDocument) [] seedConfig rfl rfl (by decide) rfl).2.2.1
      "user: Current not implemented" rfl).1⟩

/-! ## Absent prefetch, iteration order, order of the checks -/

/-- C14: with `Prefetch` nil after decoding, `parseConfig` returns a
configuration exactly when the repository loop, the purge check and the
cache-directory probe pass; what it returns is the decoded struct, `Prefetch`
still nil; and the outcome is the same for every cron parser. -/
theorem prefetch_absent (env : Env) (raw : Bytes) (result : Config)
    (hdec : yamlUnmarshal env raw seedConfig = .ok result)
    (hpre : result.Prefetch = none) :
    ((∃ c, parseConfig env raw = .ok c) ↔
        checkRepos env result.Repos = .ok () ∧
          (result.PurgeFilesAfter = 0 ∨ 600 ≤ result.PurgeFilesAfter) ∧
          env.access result.CacheDir (R_OK ||| W_OK) = true) ∧
      (∀ c, parseConfig env raw = .ok c → c = result ∧ c.Prefetch = none) ∧
      (∀ cronParse : String → Bool,
        parseConfig { env with cronParse := cronParse } raw = parseConfig env raw) := by
  have hret : ∀ c, validateConfig env result = .ok c → c = result := by
    intro c hc
    obtain ⟨-, -, -, -, heq⟩ := (validateConfig_ok_iff env result c).mp hc
    rw [heq, hpre]
    cases result
    simp_all
  refine ⟨⟨?_, ?_⟩, ?_, ?_⟩
  · rintro ⟨c, hc⟩
    rw [parseConfig_of_unmarshal hdec] at hc
    obtain ⟨h1, h2, h3, -, -⟩ := (validateConfig_ok_iff env result c).mp hc
    exact ⟨h1, h2, h3⟩
  · rintro ⟨h1, h2, h3⟩
    have hv := (validateConfig_ok_iff env result _).mpr
      ⟨h1, h2, h3, by rw [hpre]; trivial, rfl⟩
    exact ⟨_, by rw [parseConfig_of_unmarshal hdec]; exact hv⟩
  · intro c hc
    rw [parseConfig_of_unmarshal hdec] at hc
    have heq := hret c hc
    exact ⟨heq, by rw [heq, hpre]⟩
  · intro cronParse
    have hdec2 : yamlUnmarshal { env with cronParse := cronParse } raw seedConfig = .ok result :=
      hdec
    rw [parseConfig_of_unmarshal hdec, parseConfig_of_unmarshal hdec2]
    have hrepos : checkRepos { env with cronParse := cronParse } result.Repos =
        checkRepos env result.Repos :=
      @checkRepos_congr { env with cronParse := cronParse } env rfl rfl _
    unfold validateConfig
    simp only [hrepos, hpre]

/-- C14 at the empty document: accepted on a host where every probe succeeds,
and the returned configuration has no prefetch. -/
theorem prefetch_absent_witness :
    yamlUnmarshal (envOpen emptyDocument) [] seedConfig = .ok seedConfig ∧
      seedConfig.Prefetch = none ∧
      (∀ c, parseConfig (envOpen emptyDocument) [] = .ok c → c = seedConfig ∧ c.Prefetch = none) :=
  ⟨rfl, rfl, (prefetch_absent (envOpen emptyDocument) [] seedConfig rfl rfl).2.1⟩

/-- C15: for two orders `rs1`, `rs2` of the same repository entries, the
validation steps succeed for one order if and only if they succeed for the
other, and the two returned configurations agree in every field, `Repos` being
the same entries listed in the respective order. -/
theorem repos_order_irrelevant (env : Env) (result : Config)
    (rs1 rs2 : List (String × Option Repo)) (hperm : rs1.Perm rs2) :
    ((∃ c, validateConfig env { result with Repos := rs1 } = .ok c) ↔
        (∃ c, validateConfig env { result with Repos := rs2 } = .ok c)) ∧
      (∀ c1 c2, validateConfig env { result with Repos := rs1 } = .ok c1 →
        validateConfig env { result with Repos := rs2 } = .ok c2 →
        c2 = { c1 with Repos := rs2 } ∧ c1 = { c2 with Repos := rs1 }) := by
  have hloop : checkRepos env rs1 = .ok () ↔ checkRepos env rs2 = .ok () := by
    rw [checkRepos_ok_iff, checkRepos_ok_iff]
    exact ⟨fun h e he => h e (hperm.mem_iff.mpr he), fun h e he => h e (hperm.mem_iff.mp he)⟩
  refine ⟨⟨?_, ?_⟩, ?_⟩
  · rintro ⟨c, hc⟩
    obtain ⟨h1, h2, h3, h4, -⟩ := (validateConfig_ok_iff env _ c).mp hc
    exact ⟨_, (validateConfig_ok_iff env _ _).mpr ⟨hloop.mp h1, h2, h3, h4, rfl⟩⟩
  · rintro ⟨c, hc⟩
    obtain ⟨h1, h2, h3, h4, -⟩ := (validateConfig_ok_iff env _ c).mp hc
    exact ⟨_, (validateConfig_ok_iff env _ _).mpr ⟨hloop.mpr h1, h2, h3, h4, rfl⟩⟩
  · intro c1 c2 hc1 hc2
    obtain ⟨-, -, -, -, e1⟩ := (validateConfig_ok_iff env _ c1).mp hc1
    obtain ⟨-, -, -, -, e2⟩ := (validateConfig_ok_iff env _ c2).mp hc2
    subst e1
    subst e2
    exact ⟨rfl, rfl⟩

/-- C15 at two entries visited in either order: both runs return, with the same
fields. -/
theorem repos_order_irrelevant_witness :
    validateConfig (envOpen emptyDocument)
        { seedConfig with Repos := [("core", some urlRepo), ("extra", some mirrorlistRepo)] } =
        .ok { seedConfig with Repos := [("core", some urlRepo), ("extra", some mirrorlistRepo)] } ∧
      ∃ c, validateConfig (envOpen emptyDocument)
        { seedConfig with Repos := [("extra", some mirrorlistRepo), ("core", some urlRepo)] } =
        .ok c :=
  ⟨rfl,
    (repos_order_irrelevant (envOpen emptyDocument) seedConfig
      [("core", some urlRepo), ("extra", some mirrorlistRepo)]
      [("extra", some mirrorlistRepo), ("core", some urlRepo)]
      (List.Perm.swap _ _ _)).1.mp ⟨_, rfl⟩⟩

/-- C16: `parseConfig` stops at the first violated check, in the order
repository loop (first failing entry in iteration order), purge interval, cache
directory, `TTLUnaccessed`, `TTLUnupdated`, cron string: each diagnostic below
is raised whatever the later checks would have found. -/
theorem fail_fast_order (env : Env) (raw : Bytes) (result : Config)
    (hdec : yamlUnmarshal env raw seedConfig = .ok result) :
    (∀ before name repo after d, result.Repos = before ++ (name, repo) :: after →
        (∀ e ∈ before, checkRepo env e.1 e.2 = .ok ()) →
        checkRepo env name repo = .error d → parseConfig env raw = .error d) ∧
      (checkRepos env result.Repos = .ok () →
        (result.PurgeFilesAfter ≠ 0 ∧ result.PurgeFilesAfter < 600 →
          parseConfig env raw = .error (.purgeTooLow result.PurgeFilesAfter)) ∧
        ((result.PurgeFilesAfter = 0 ∨ 600 ≤ result.PurgeFilesAfter) →
          (env.access result.CacheDir (R_OK ||| W_OK) = false →
            parseConfig env raw =
              match env.currentUser with
              | .error err => .error (.userLookup err)
              | .ok username => .error (.cacheDirUnusable result.CacheDir username)) ∧
          (env.access result.CacheDir (R_OK ||| W_OK) = true →
            ∀ p, result.Prefetch = some p →
              (p.TTLUnaccessed < 0 → parseConfig env raw = .error .ttlUnaccessedTooLow) ∧
              (0 ≤ p.TTLUnaccessed → p.TTLUnupdated < 0 →
                parseConfig env raw = .error .ttlUnupdatedTooLow) ∧
              (0 ≤ p.TTLUnaccessed → 0 ≤ p.TTLUnupdated → env.cronParse p.Cron = false →
                parseConfig env raw = .error .invalidCron)))) := by
  rw [parseConfig_of_unmarshal hdec]
  refine ⟨?_, ?_⟩
  · intro before name repo after d hsplit hbefore hfail
    have hloop := checkRepos_first_failure env before after name repo d hbefore hfail
    rw [← hsplit] at hloop
    simp only [validateConfig, hloop]
  · intro hrepos
    refine ⟨?_, ?_⟩
    · intro hlow
      have hlow2 : result.PurgeFilesAfter < 10 * 60 ∧ result.PurgeFilesAfter ≠ 0 := by omega
      unfold validateConfig
      simp only [hrepos]
      rw [if_pos hlow2]
    · intro hpurge
      have hp : ¬ (result.PurgeFilesAfter < 10 * 60 ∧ result.PurgeFilesAfter ≠ 0) := by omega
      refine ⟨?_, ?_⟩
      · intro hcache
        unfold validateConfig
        simp only [hrepos]
        rw [if_neg hp, if_pos hcache]
      · intro hcache p hpre
        rw [validateConfig_prefetch_stage hrepos hpurge hcache, hpre]
        simp only [setDefaultValues_TTLUnaccessed, setDefaultValues_TTLUnupdated,
          setDefaultValues_Cron]
        refine ⟨?_, ?_, ?_⟩
        · intro ha
          have h0 : p.TTLUnaccessed ≠ 0 := by omega
          simp [ha, h0]
        · intro ha hb
          have ha2 : ¬ (if p.TTLUnaccessed = 0 then (30 : Int) else p.TTLUnaccessed) < 0 := by
            split <;> omega
          have h0 : p.TTLUnupdated ≠ 0 := by omega
          simp [ha2, hb, h0]
        · intro ha hb hcron
          have ha2 : ¬ (if p.TTLUnaccessed = 0 then (30 : Int) else p.TTLUnaccessed) < 0 := by
            split <;> omega
          have hb2 : ¬ (if p.TTLUnupdated = 0 then (200 : Int) else p.TTLUnupdated) < 0 := by
            split <;> omega
          simp [ha2, hb2, hcron]

/-- C16 at `brokenDocument` (a repository without a source and a purge interval
of 5): the repository diagnostic is the one raised; and at `negativeTTLDocument`
(a negative TTL and a cron string that does not parse): the TTL diagnostic. -/
theorem fail_fast_order_witness :
    yamlUnmarshal (envOpen brokenDocument) [] seedConfig = .ok brokenDecoded ∧
      parseConfig (envOpen brokenDocument) [] = .error (.noSource "core") ∧
      parseConfig (envOpen negativeTTLDocument) [] = .error .ttlUnupdatedTooLow :=
  ⟨rfl,
    (fail_fast_order (envOpen brokenDocument) [] brokenDecoded rfl).1
      [] "core" (some sourcelessRepo) [] (.noSource "core") rfl (by simp) rfl,
    ((((fail_fast_order (envOpen negativeTTLDocument) [] negativeTTLDecoded rfl).2 rfl).2
      (by decide)).2 rfl { Cron := "not a cron", TTLUnaccessed := 5, TTLUnupdated := -1 }
      rfl).2.1 (by decide) (by decide)⟩

/-! ## What validation changes -/

/-- C17: when `parseConfig` returns, the configuration has every field of the
decoded struct unchanged (`CacheDir`, `Port`, `Repos`, `PurgeFilesAfter`,
`DownloadTimeout`, `HttpProxy`, `UserAgent`, `LogTimestamp`, `SocketActivation`,
a nil `Prefetch`, the cron string), and a TTL that was not 0 unchanged; a TTL
that was 0 is 30 (unaccessed) or 200 (unupdated). -/
theorem validation_frame (env : Env) (raw : Bytes) (result c : Config)
    (hdec : yamlUnmarshal env raw seedConfig = .ok result)
    (h : parseConfig env raw = .ok c) :
    c.CacheDir = result.CacheDir ∧ c.Port = result.Port ∧ c.Repos = result.Repos ∧
      c.PurgeFilesAfter = result.PurgeFilesAfter ∧
      c.DownloadTimeout = result.DownloadTimeout ∧ c.HttpProxy = result.HttpProxy ∧
      c.UserAgent = result.UserAgent ∧ c.LogTimestamp = result.LogTimestamp ∧
      c.SocketActivation = result.SocketActivation ∧
      (result.Prefetch = none → c.Prefetch = none) ∧
      (∀ p, result.Prefetch = some p →
        ∃ q, c.Prefetch = some q ∧ q.Cron = p.Cron ∧
          (p.TTLUnaccessed ≠ 0 → q.TTLUnaccessed = p.TTLUnaccessed) ∧
          (p.TTLUnupdated ≠ 0 → q.TTLUnupdated = p.TTLUnupdated) ∧
          (p.TTLUnaccessed = 0 → q.TTLUnaccessed = 30) ∧
          (p.TTLUnupdated = 0 → q.TTLUnupdated = 200)) := by
  rw [parseConfig_of_unmarshal hdec] at h
  obtain ⟨-, -, -, -, hc⟩ := (validateConfig_ok_iff env result c).mp h
  subst hc
  refine ⟨rfl, rfl, rfl, rfl, rfl, rfl, rfl, rfl, rfl, ?_, ?_⟩
  · intro hnone
    simp [hnone]
  · intro p hp
    refine ⟨setDefaultValues p, by simp [hp], setDefaultValues_Cron p, ?_, ?_, ?_, ?_⟩
    · intro h0
      rw [setDefaultValues_TTLUnaccessed, if_neg h0]
    · intro h0
      rw [setDefaultValues_TTLUnupdated, if_neg h0]
    · intro h0
      rw [setDefaultValues_TTLUnaccessed, if_pos h0]
    · intro h0
      rw [setDefaultValues_TTLUnupdated, if_pos h0]

/-- C17 at `sampleDocument`: repositories, purge interval and cron string come
back as decoded, the two TTLs left at 0 come back as 30 and 200. -/
theorem validation_frame_witness :
    ∃ c, parseConfig (envOpen sampleDocument) [] = .ok c ∧
      c.Repos = sampleDecoded.Repos ∧ c.PurgeFilesAfter = 3600 ∧
      c.Prefetch = some { Cron := "0 0 3 * * * *", TTLUnaccessed := 30, TTLUnupdated := 200 } :=
  ⟨{ sampleDecoded with
      Prefetch := some { Cron := "0 0 3 * * * *", TTLUnaccessed := 30, TTLUnupdated := 200 } },
    rfl,
    (validation_frame (envOpen sampleDocument) [] sampleDecoded _ rfl rfl).2.2.1,
    (validation_frame (envOpen sampleDocument) [] sampleDecoded _ rfl rfl).2.2.2.1, rfl⟩

/-- C18: when `parseConfig` returns a configuration whose `Prefetch` is present,
both of its TTLs are at least 1. -/
theorem returned_ttls_positive (env : Env) (raw : Bytes) (c : Config) (p : RefreshPeriod)
    (h : parseConfig env raw = .ok c) (hp : c.Prefetch = some p) :
    1 ≤ p.TTLUnaccessed ∧ 1 ≤ p.TTLUnupdated := by
  obtain ⟨result, -, hval⟩ := parseConfig_ok_decoded h
  obtain ⟨-, -, -, hpre, hc⟩ := (validateConfig_ok_iff env result c).mp hval
  subst hc
  cases hq : result.Prefetch with
  | none => simp [hq] at hp
  | some q =>
    simp only [hq, Option.map_some', Option.some.injEq] at hp
    rw [hq] at hpre
    obtain ⟨ha, hb, -⟩ := hpre
    subst hp
    rw [setDefaultValues_TTLUnaccessed, setDefaultValues_TTLUnupdated]
    constructor
    · split <;> omega
    · split <;> omega

/-- C18 at `sampleDocument`, whose TTLs are both 0 in the document. -/
theorem returned_ttls_positive_witness :
    parseConfig (envOpen sampleDocument) [] =
        .ok { sampleDecoded with
          Prefetch := some { Cron := "0 0 3 * * * *", TTLUnaccessed := 30, TTLUnupdated := 200 } } ∧
      (1 : Int) ≤ 30 ∧ (1 : Int) ≤ 200 :=
  ⟨rfl,
    returned_ttls_positive (envOpen sampleDocument) []
      { sampleDecoded with
        Prefetch := some { Cron := "0 0 3 * * * *", TTLUnaccessed := 30, TTLUnupdated := 200 } }
      { Cron := "0 0 3 * * * *", TTLUnaccessed := 30, TTLUnupdated := 200 } rfl rfl⟩

/-- C19: if the validation steps of `parseConfig` return `c'` on `c`, then on
`c'`, on the same host, they return `c'` again. -/
theorem validateConfig_idempotent (env : Env) (c c' : Config)
    (h : validateConfig env c = .ok c') : validateConfig env c' = .ok c' := by
  obtain ⟨hrepos, hpurge, hcache, hpre, hc⟩ := (validateConfig_ok_iff env c c').mp h
  subst hc
  refine (validateConfig_ok_iff env _ _).mpr ⟨hrepos, hpurge, hcache, ?_, ?_⟩
  · cases hq : c.Prefetch with
    | none => simp [prefetchAcceptable]
    | some q =>
      rw [hq] at hpre
      obtain ⟨ha, hb, hcron⟩ := hpre
      simp only [Option.map_some', prefetchAcceptable]
      rw [setDefaultValues_TTLUnaccessed, setDefaultValues_TTLUnupdated, setDefaultValues_Cron]
      refine ⟨?_, ?_, hcron⟩
      · split <;> omega
      · split <;> omega
  · cases hq : c.Prefetch with
    | none => simp
    | some q =>
      have hfix : setDefaultValues (setDefaultValues q) = setDefaultValues q := by
        have ha := setDefaultValues_TTLUnaccessed q
        have hb := setDefaultValues_TTLUnupdated q
        have ha0 : (setDefaultValues q).TTLUnaccessed ≠ 0 := by
          rw [ha]; split <;> omega
        have hb0 : (setDefaultValues q).TTLUnupdated ≠ 0 := by
          rw [hb]; split <;> omega
        generalize setDefaultValues q = r at ha0 hb0
        simp [setDefaultValues, ha0, hb0]
      simp [hfix]

/-- C19 at the decoded `sampleDocument`: the first run fills in the TTLs, the
second run returns its input. -/
theorem validateConfig_idempotent_witness :
    validateConfig (envOpen sampleDocument) sampleDecoded =
        .ok { sampleDecoded with
          Prefetch := some { Cron := "0 0 3 * * * *", TTLUnaccessed := 30, TTLUnupdated := 200 } } ∧
      validateConfig (envOpen sampleDocument)
          { sampleDecoded with
            Prefetch := some { Cron := "0 0 3 * * * *", TTLUnaccessed := 30, TTLUnupdated := 200 } } =
        .ok { sampleDecoded with
          Prefetch := some { Cron := "0 0 3 * * * *", TTLUnaccessed := 30, TTLUnupdated := 200 } } :=
  ⟨rfl, validateConfig_idempotent (envOpen sampleDocument) sampleDecoded _ rfl⟩

/-! ## A failed decode -/

/-- C20: when `UnmarshalText` returns an error, the receiver holds the value it
held before the call. -/
theorem unmarshalText_error_keeps_receiver (mapLower : Bytes → Bytes) (a : SocketActivation)
    (text : Bytes) (h : (UnmarshalText mapLower a text).2 ≠ none) :
    (UnmarshalText mapLower a text).1 = a := by
  obtain ⟨hoff, hmay, hmust, hbad⟩ := UnmarshalText_cases mapLower a text
  by_cases hmem : ToLower mapLower text ∈
      [bytesOf "off", bytesOf "false", bytesOf "may", bytesOf "auto", bytesOf "must",
        bytesOf "true"]
  · exfalso
    apply h
    simp only [List.mem_cons, List.mem_singleton, List.not_mem_nil, or_false] at hmem
    rcases hmem with h1 | h1 | h1 | h1 | h1 | h1
    · rw [hoff (Or.inl h1)]
    · rw [hoff (Or.inr h1)]
    · rw [hmay (Or.inl h1)]
    · rw [hmay (Or.inr h1)]
    · rw [hmust (Or.inl h1)]
    · rw [hmust (Or.inr h1)]
  · rw [hbad hmem]

/-- C20 at the text `yes`, decoded into a receiver that holds `ActivationMust`. -/
theorem unmarshalText_error_keeps_receiver_witness :
    (UnmarshalText (fun s => s) ActivationMust (bytesOf "yes")).2 =
        some "Ivalid SocketActivation value" ∧
      (UnmarshalText (fun s => s) ActivationMust (bytesOf "yes")).1 = ActivationMust :=
  ⟨rfl,
    unmarshalText_error_keeps_receiver (fun s => s) ActivationMust (bytesOf "yes") (by decide)⟩

end Pacoloco
